import Mathlib

/-!
Verification development for the lost-and-found service.

The backend stores two document collections, items and claims, in MongoDB via
mongoose. We embed a document id as a `Nat`, a collection as an association
list from id to record, and each express route handler as a pure function
from a `World` (both collections plus a clock standing for `Date.now`) to an
outcome paired with the updated `World`. String-enum fields (`status`,
`type`) are kept as strings, exactly as the mongoose schemas declare them.
-/

namespace LostFound

/-- Item record, following the mongoose `itemSchema` (backend/models/Item.js):
title, description, type (`lost`|`found`), category, location, event date,
optional image and contact text, owner reference `createdBy`, status
(`active`|`resolved`|`archived`), soft-delete flag `isActive`, view counter,
tags, and the `timestamps: true` creation time. Dates are embedded as `Int`. -/
structure Item where
  title : String
  description : String
  itemType : String
  category : String
  location : String
  date : Int
  image : Option String
  contactInfo : Option String
  createdBy : Nat
  status : String
  isActive : Bool
  views : Nat
  tags : List String
  createdAt : Int
deriving Repr, DecidableEq

/-- Claim record, following the mongoose `claimSchema` (backend/models/Claim.js):
item reference, claimant reference `claimedBy`, message, status
(`pending`|`approved`|`rejected`, default `pending`), optional `adminNotes`,
`resolvedAt` timestamp and `resolvedBy` reference, plus the creation time. -/
structure Claim where
  item : Nat
  claimedBy : Nat
  message : String
  status : String
  adminNotes : Option String
  resolvedAt : Option Int
  resolvedBy : Option Nat
  createdAt : Int
deriving Repr, DecidableEq

/-- The database state seen by a request handler: the items collection, the
claims collection (each an id-indexed association list), and the current
clock used for `new Date()` / `Date.now`. -/
structure World where
  items : List (Nat × Item)
  claims : List (Nat × Claim)
  now : Int
deriving Repr, DecidableEq

/-- First-match lookup in an id-indexed collection; embeds mongoose
`Model.findById` (ids are unique in the store, so first match is the match). -/
def lookupAssoc {α : Type} : List (Nat × α) → Nat → Option α
  | [], _ => none
  | p :: rest, k => if p.1 = k then some p.2 else lookupAssoc rest k

/-- Replace the record stored under id `k`; embeds saving a fetched mongoose
document back (`doc.save()` writes the single document with that id). -/
def updateAssoc {α : Type} : List (Nat × α) → Nat → α → List (Nat × α)
  | [], _, _ => []
  | p :: rest, k, v => if p.1 = k then (k, v) :: updateAssoc rest k v else p :: updateAssoc rest k v

/-- A fresh id for an inserted document, larger than every id in use. -/
def freshId {α : Type} (l : List (Nat × α)) : Nat :=
  (l.map Prod.fst).foldr max 0 + 1

/-- The `.trim()` sanitizer of the express-validator chains (and of the
mongoose `trim: true` schema options): strips leading and trailing
whitespace from a string. -/
def trimStr (s : String) : String :=
  String.mk (((s.toList.dropWhile Char.isWhitespace).reverse.dropWhile
    Char.isWhitespace).reverse)

/-- Item lookup, `Item.findById`. -/
def Item.findById (w : World) (id : Nat) : Option Item :=
  lookupAssoc w.items id

/-- Claim lookup, `Claim.findById`. -/
def Claim.findById (w : World) (id : Nat) : Option Claim :=
  lookupAssoc w.claims id

/-- Descending insertion by an integer key, used to embed mongoose
`sort` on `createdAt: -1` (newest first). -/
def insertDescBy {α : Type} (key : α → Int) (x : α) : List α → List α
  | [] => [x]
  | y :: rest => if key y ≤ key x then x :: y :: rest else y :: insertDescBy key x rest

/-- Descending sort by an integer key (insertion sort). -/
def sortDescBy {α : Type} (key : α → Int) : List α → List α
  | [] => []
  | x :: rest => insertDescBy key x (sortDescBy key rest)

/-- Outcome of `POST /api/claims/:itemId` (backend/routes/claims.js,
submit a claim), tagged by the branch the handler returns from. -/
inductive SubmitOutcome
  | validationFailed
  | itemNotFound
  | ownItem
  | alreadyClaimed
  | created (claimId : Nat)
deriving Repr, DecidableEq

/-- The HTTP status code each submit branch responds with
(`res.status(...)` in the route). -/
def SubmitOutcome.httpStatus : SubmitOutcome → Nat
  | .validationFailed => 400
  | .itemNotFound => 404
  | .ownItem => 400
  | .alreadyClaimed => 400
  | .created _ => 201

/-- Submit a claim, embedding `router.post('/:itemId')` of
backend/routes/claims.js: the express-validator chain trims the message and
checks its length is in [20,1000]; then the item must exist, be `isActive`
and have status `active`; the claimant must not own the item; `findOne` on
(item, claimedBy) must find no existing claim; finally a new claim is
inserted with default status `pending`. -/
def submitClaim (w : World) (itemId userId : Nat) (message : String) :
    SubmitOutcome × World :=
  let msg := trimStr message
  if ¬ (20 ≤ msg.length ∧ msg.length ≤ 1000) then (.validationFailed, w)
  else
    match Item.findById w itemId with
    | none => (.itemNotFound, w)
    | some item =>
      if item.isActive = false ∨ item.status ≠ "active" then (.itemNotFound, w)
      else if item.createdBy = userId then (.ownItem, w)
      else if w.claims.any (fun p => p.2.item == itemId && p.2.claimedBy == userId) then
        (.alreadyClaimed, w)
      else
        let cid := freshId w.claims
        let c : Claim :=
          { item := itemId, claimedBy := userId, message := msg,
            status := "pending", adminNotes := none,
            resolvedAt := none, resolvedBy := none, createdAt := w.now }
        (.created cid, { w with claims := w.claims ++ [(cid, c)] })

/-- Instance method `claimSchema.methods.approve` (backend/models/Claim.js):
sets status `approved`, the resolver, and the resolution time. -/
def Claim.approve (c : Claim) (approvedBy : Nat) (now : Int) : Claim :=
  { c with status := "approved", resolvedBy := some approvedBy, resolvedAt := some now }

/-- Instance method `claimSchema.methods.reject` (backend/models/Claim.js):
sets status `rejected`, the resolver, the resolution time, and stores the
notes only when they are non-empty (`if (notes) this.adminNotes = notes`). -/
def Claim.reject (c : Claim) (rejectedBy : Nat) (notes : String) (now : Int) : Claim :=
  { c with status := "rejected", resolvedBy := some rejectedBy, resolvedAt := some now,
           adminNotes := if notes ≠ "" then some notes else c.adminNotes }

/-- Outcome of `PUT /api/claims/:claimId` (approve or reject a claim).
`itemGone` is the route throwing a `TypeError` (responded as a 500) when the
populated item reference is null. -/
inductive ResolveOutcome
  | validationFailed
  | claimNotFound
  | itemGone
  | forbidden
  | invalidOperation
  | ok
deriving Repr, DecidableEq

/-- The HTTP status code each resolve branch responds with. -/
def ResolveOutcome.httpStatus : ResolveOutcome → Nat
  | .validationFailed => 400
  | .claimNotFound => 404
  | .itemGone => 500
  | .forbidden => 403
  | .invalidOperation => 400
  | .ok => 200

/-- Resolve a claim, embedding `router.put('/:claimId')` of
backend/routes/claims.js: the validator requires `status` to be `approved`
or `rejected` and the optional, trimmed `adminNotes` to have at most 500
characters; the claim must exist and its populated item must resolve; the
requester must own the item; the claim must still be `pending`. On
`approved` the route calls `claim.approve` and additionally saves the item
with status `resolved`; on `rejected` it calls `claim.reject` with the
notes (mongoose defaults absent notes to the empty string). -/
def resolveClaim (w : World) (claimId userId : Nat) (status : String)
    (adminNotes : Option String) : ResolveOutcome × World :=
  if ¬ (status = "approved" ∨ status = "rejected") then (.validationFailed, w)
  else if ¬ (((adminNotes.map trimStr).getD "").length ≤ 500) then (.validationFailed, w)
  else
    match Claim.findById w claimId with
    | none => (.claimNotFound, w)
    | some claim =>
      match Item.findById w claim.item with
      | none => (.itemGone, w)
      | some item =>
        if item.createdBy ≠ userId then (.forbidden, w)
        else if claim.status ≠ "pending" then (.invalidOperation, w)
        else if status = "approved" then
          (.ok, { w with
            claims := updateAssoc w.claims claimId (claim.approve userId w.now),
            items := updateAssoc w.items claim.item { item with status := "resolved" } })
        else
          (.ok, { w with
            claims := updateAssoc w.claims claimId
              (claim.reject userId ((adminNotes.map trimStr).getD "") w.now) })

/-- Outcome of `DELETE /api/claims/:claimId`. -/
inductive DeleteOutcome
  | claimNotFound
  | forbidden
  | invalidOperation
  | deleted
deriving Repr, DecidableEq

/-- The HTTP status code each delete branch responds with. -/
def DeleteOutcome.httpStatus : DeleteOutcome → Nat
  | .claimNotFound => 404
  | .forbidden => 403
  | .invalidOperation => 400
  | .deleted => 200

/-- Delete a claim, embedding `router.delete('/:claimId')` of
backend/routes/claims.js: the claim must exist, the requester must be the
claimant, and the claim must still be `pending`; then
`Claim.findByIdAndDelete` removes it from the collection. -/
def deleteClaim (w : World) (claimId userId : Nat) : DeleteOutcome × World :=
  match Claim.findById w claimId with
  | none => (.claimNotFound, w)
  | some claim =>
    if claim.claimedBy ≠ userId then (.forbidden, w)
    else if claim.status ≠ "pending" then (.invalidOperation, w)
    else (.deleted, { w with claims := w.claims.filter (fun p => !(p.1 == claimId)) })

/-- Static method `claimSchema.statics.getPendingClaimsForUser`
(backend/models/Claim.js): finds claims with status `pending`, newest first,
and populates each claim's item with the ownership match
`match: (createdBy: userId)` — an item that does not satisfy the match (or
no longer exists) populates as `null`, embedded as `none`. -/
def getPendingClaimsForUser (w : World) (userId : Nat) :
    List (Nat × Claim × Option Item) :=
  (sortDescBy (fun p => p.2.createdAt)
      (w.claims.filter (fun p => p.2.status == "pending"))).map
    (fun p => (p.1, p.2,
      match Item.findById w p.2.item with
      | some it => if it.createdBy = userId then some it else none
      | none => none))

/-- List pending claims on the requester's items, embedding
`router.get('/pending')` of backend/routes/claims.js: calls
`getPendingClaimsForUser` and then keeps only claims whose populated item is
non-null (`claims.filter(claim => claim.item)`). -/
def listPendingForOwner (w : World) (userId : Nat) : List (Nat × Claim × Item) :=
  (getPendingClaimsForUser w userId).filterMap
    (fun t => match t.2.2 with
      | some it => some (t.1, t.2.1, it)
      | none => none)

/-- Filter arguments accepted by `itemSchema.statics.getFilteredItems`
(backend/models/Item.js); the items route only passes a key when the query
supplied one (and `type`/`category` only when not `all`). -/
structure ItemFilters where
  type : Option String
  category : Option String
  location : Option String
  search : Option String
  dateFrom : Option Int
  dateTo : Option Int
deriving Repr, DecidableEq

/-- Whether `pat` occurs as a contiguous run inside the second list. -/
def listContains (pat : List Char) : List Char → Bool
  | [] => pat.isEmpty
  | c :: rest => pat.isPrefixOf (c :: rest) || listContains pat rest

/-- Case-insensitive substring containment, embedding the `location`
condition `$regex: filters.location, $options: i` for a plain (non-special)
pattern string. -/
def containsCI (hay pat : String) : Bool :=
  listContains pat.toLower.toList hay.toLower.toList

/-- The query predicate built by `itemSchema.statics.getFilteredItems`:
the base query requires `isActive: true, status: active`, and each supplied
filter adds a conjunct. The `$text` full-text search is executed by the
store's text index, an external collaborator, so it is taken as an oracle
parameter `textMatch`. -/
def itemMatchesFilters (textMatch : String → Item → Bool) (f : ItemFilters)
    (it : Item) : Bool :=
  it.isActive
  && it.status == "active"
  && (match f.type with | none => true | some t => it.itemType == t)
  && (match f.category with | none => true | some c => it.category == c)
  && (match f.location with | none => true | some l => containsCI it.location l)
  && (match f.search with | none => true | some s => textMatch s it)
  && (match f.dateFrom with | none => true | some d => decide (d ≤ it.date))
  && (match f.dateTo with | none => true | some d => decide (it.date ≤ d))

/-- Static method `itemSchema.statics.getFilteredItems` (backend/models/Item.js):
the filtered query, sorted newest-created-first. -/
def getFilteredItems (textMatch : String → Item → Bool) (w : World)
    (f : ItemFilters) : List (Nat × Item) :=
  sortDescBy (fun p => p.2.createdAt)
    (w.items.filter (fun p => itemMatchesFilters textMatch f p.2))

/-- Query parameters of `GET /api/items` as parsed values; a missing
parameter is `none`. -/
structure ItemsQuery where
  type : Option String
  category : Option String
  location : Option String
  search : Option String
  page : Option Nat
  limit : Option Nat
  dateFrom : Option Int
  dateTo : Option Int
deriving Repr, DecidableEq

/-- The closed category enumeration of the item schema. -/
def categories : List String :=
  ["Electronics", "Clothing", "Accessories", "Keys", "Documents", "Bags", "Sports", "Other"]

/-- The express-validator query checks of `GET /api/items` (routes/items.js):
optional `type` in (lost, found, all), optional `category` in the enum plus
`all`, optional `page ≥ 1`, optional `limit` in [1,50]. -/
def validItemsQuery (q : ItemsQuery) : Bool :=
  (match q.type with | none => true | some t => ["lost", "found", "all"].contains t)
  && (match q.category with | none => true | some c => ("all" :: categories).contains c)
  && (match q.page with | none => true | some p => decide (1 ≤ p))
  && (match q.limit with | none => true | some l => decide (1 ≤ l ∧ l ≤ 50))

/-- Pagination block of the `GET /api/items` response. -/
structure Pagination where
  current : Nat
  pages : Nat
  total : Nat
deriving Repr, DecidableEq

/-- Outcome of `GET /api/items`. -/
inductive ItemsListOutcome
  | badRequest
  | ok (items : List (Nat × Item)) (pagination : Pagination)
deriving Repr, DecidableEq

/-- Public item listing, embedding `router.get('/')` of routes/items.js:
after query validation, defaults are `type = all`, `category = all`,
`page = 1`, `limit = 20`; the route builds the filters (dropping `all`),
runs `getFilteredItems` with `.skip((page-1)*limit).limit(limit)`, and
counts the documents matching the same predicate for the pagination block
(`pages` is the ceiling of total/limit). -/
def getItems (textMatch : String → Item → Bool) (w : World) (q : ItemsQuery) :
    ItemsListOutcome :=
  if validItemsQuery q = false then .badRequest
  else
    let type := q.type.getD "all"
    let category := q.category.getD "all"
    let page := q.page.getD 1
    let limit := q.limit.getD 20
    let f : ItemFilters :=
      { type := if type ≠ "all" then some type else none,
        category := if category ≠ "all" then some category else none,
        location := q.location, search := q.search,
        dateFrom := q.dateFrom, dateTo := q.dateTo }
    let all := getFilteredItems textMatch w f
    let total := (w.items.filter (fun p => itemMatchesFilters textMatch f p.2)).length
    .ok ((all.drop ((page - 1) * limit)).take limit)
      { current := page, pages := (total + limit - 1) / limit, total := total }

/-- Outcome of `GET /api/items/:id` (single item detail). -/
inductive ItemDetailOutcome
  | itemNotFound
  | ok (it : Item)
deriving Repr, DecidableEq

/-- Single item detail, embedding `router.get('/:id')` of routes/items.js:
404 when the item is absent or not `isActive`; otherwise the view counter is
incremented (`item.incrementViews()`) and the item is returned. No
authentication middleware guards this route, so any viewer reaches it. -/
def getItem (w : World) (id : Nat) : ItemDetailOutcome × World :=
  match Item.findById w id with
  | none => (.itemNotFound, w)
  | some it =>
    if it.isActive = false then (.itemNotFound, w)
    else
      let it' := { it with views := it.views + 1 }
      (.ok it', { w with items := updateAssoc w.items id it' })

/-- Body of `PUT /api/items/:id`; each field is optional, `imageFile` stands
for an uploaded image's stored URL (`req.file.path`). -/
structure UpdateItemBody where
  title : Option String
  description : Option String
  category : Option String
  location : Option String
  contactInfo : Option String
  imageFile : Option String
deriving Repr, DecidableEq

/-- The express-validator body checks of `PUT /api/items/:id`: optional
trimmed title in [3,100], description in [10,1000], category in the enum,
location in [3,200], contactInfo at most 200 characters. -/
def validUpdateBody (b : UpdateItemBody) : Bool :=
  (match b.title with
    | none => true
    | some t => decide (3 ≤ (trimStr t).length ∧ (trimStr t).length ≤ 100))
  && (match b.description with
    | none => true
    | some d => decide (10 ≤ (trimStr d).length ∧ (trimStr d).length ≤ 1000))
  && (match b.category with | none => true | some c => categories.contains c)
  && (match b.location with
    | none => true
    | some l => decide (3 ≤ (trimStr l).length ∧ (trimStr l).length ≤ 200))
  && (match b.contactInfo with
    | none => true
    | some ci => decide ((trimStr ci).length ≤ 200))

/-- Outcome of `PUT /api/items/:id`. -/
inductive UpdateOutcome
  | validationFailed
  | itemNotFound
  | forbidden
  | ok (it : Item)
deriving Repr, DecidableEq

/-- Edit an item, embedding `router.put('/:id')` of routes/items.js: after
validation the item must exist and be `isActive`, and the requester must be
its owner; then exactly the fields listed in `allowedUpdates`
(title, description, category, location, contactInfo) are copied from the
body when present (trimmed by the validator chain, except category), and the
image is replaced when a file was uploaded. -/
def updateItem (w : World) (itemId userId : Nat) (b : UpdateItemBody) :
    UpdateOutcome × World :=
  if validUpdateBody b = false then (.validationFailed, w)
  else
    match Item.findById w itemId with
    | none => (.itemNotFound, w)
    | some item =>
      if item.isActive = false then (.itemNotFound, w)
      else if item.createdBy ≠ userId then (.forbidden, w)
      else
        let item' : Item :=
          { item with
            title := (b.title.map trimStr).getD item.title,
            description := (b.description.map trimStr).getD item.description,
            category := b.category.getD item.category,
            location := (b.location.map trimStr).getD item.location,
            contactInfo := (match b.contactInfo.map trimStr with
              | some ci => some ci
              | none => item.contactInfo),
            image := (match b.imageFile with
              | some f => some f
              | none => item.image) }
        (.ok item', { w with items := updateAssoc w.items itemId item' })

/-- Whether the given (possibly anonymous) user is the item's owner, as the
item-details page computes it (`user && user.userId === item.createdBy._id`,
src/pages/ItemDetails.tsx). -/
def isOwnerOf (user : Option Nat) (it : Item) : Bool :=
  match user with
  | some uid => uid == it.createdBy
  | none => false

/-- The frontend claim gate `canBeClaimed` of src/pages/ItemDetails.tsx:
the claim action is offered exactly when the item's type is `found` and the
viewer is not the owner. -/
def canBeClaimed (it : Item) (user : Option Nat) : Bool :=
  it.itemType == "found" && !(isOwnerOf user it)

/-! Concrete fixtures used to evaluate the operations at specific states. -/

/-- A found, active, listed item owned by user 10. -/
def itemFound : Item :=
  { title := "Found black wallet", description := "Black leather wallet with a zip",
    itemType := "found", category := "Accessories", location := "Main Library",
    date := 100, image := none, contactInfo := none, createdBy := 10,
    status := "active", isActive := true, views := 0, tags := [], createdAt := 100 }

/-- A lost, active, listed item owned by user 10. -/
def itemLost : Item :=
  { itemFound with title := "Lost keys", itemType := "lost", category := "Keys" }

/-- A found item that is archived but still `isActive`. -/
def itemArchived : Item :=
  { itemFound with status := "archived" }

/-- A soft-deleted, archived item owned by user 10. -/
def itemGoneSoft : Item :=
  { itemFound with status := "archived", isActive := false }

/-- A 40-character claim message (trim-stable). -/
def msg40 : String :=
  "This is my wallet, lost at the library.."

/-- A pending claim by user 20 on item 1. -/
def claimPending : Claim :=
  { item := 1, claimedBy := 20, message := msg40, status := "pending",
    adminNotes := none, resolvedAt := none, resolvedBy := none, createdAt := 200 }

/-- An approved claim by user 20 on item 1, resolved by user 10. -/
def claimApproved : Claim :=
  { claimPending with status := "approved", resolvedBy := some 10, resolvedAt := some 300 }

/-- World with the found item and a pending claim on it. -/
def wPend : World :=
  { items := [(1, itemFound)], claims := [(1, claimPending)], now := 500 }

/-- World with the found item and an already approved claim on it. -/
def wTerm : World :=
  { items := [(1, itemFound)], claims := [(1, claimApproved)], now := 500 }

/-- World with only the lost item and no claims. -/
def wLost : World :=
  { items := [(1, itemLost)], claims := [], now := 500 }

/-- World with only the archived (but active) item. -/
def wArch : World :=
  { items := [(1, itemArchived)], claims := [], now := 500 }

/-- World with a soft-deleted archived item that still has a pending claim. -/
def wSoftDel : World :=
  { items := [(1, itemGoneSoft)], claims := [(1, claimPending)], now := 500 }

/-- World for the delete route: claim 1 pending, claim 2 already approved. -/
def wDel : World :=
  { items := [(1, itemFound)], claims := [(1, claimPending), (2, claimApproved)], now := 500 }

/-- World for the public listing: a lost Keys item, a resolved item, a
soft-deleted item, and an archived item. -/
def wList : World :=
  { items := [(1, itemLost),
              (2, { itemFound with status := "resolved", createdAt := 150 }),
              (3, { itemLost with isActive := false, createdAt := 160 }),
              (4, { itemFound with status := "archived", createdAt := 170 })],
    claims := [], now := 500 }

/-- A text-search oracle that matches nothing, for concrete evaluations. -/
def noText : String → Item → Bool := fun _ _ => false

/-! Helper lemmas about the store embedding. -/

/-- Updating the record stored under `k` changes what `k` looks up to the new
value, provided `k` was present. -/
theorem lookupAssoc_updateAssoc_self {α : Type} (l : List (Nat × α)) (k : Nat)
    (v x : α) (h : lookupAssoc l k = some x) :
    lookupAssoc (updateAssoc l k v) k = some v := by
  induction l with
  | nil => simp [lookupAssoc] at h
  | cons p rest ih =>
    by_cases hp : p.1 = k
    · simp [lookupAssoc, updateAssoc, hp]
    · simp only [lookupAssoc, updateAssoc, hp, if_false] at h ⊢
      exact ih h

/-- Updating the record stored under `k` leaves every other lookup unchanged. -/
theorem lookupAssoc_updateAssoc_ne {α : Type} (l : List (Nat × α)) (k k' : Nat)
    (v : α) (h : k' ≠ k) :
    lookupAssoc (updateAssoc l k v) k' = lookupAssoc l k' := by
  induction l with
  | nil => simp [lookupAssoc, updateAssoc]
  | cons p rest ih =>
    by_cases hp : p.1 = k
    · have hkk : ¬ (k = k') := fun hk => h hk.symm
      simp [lookupAssoc, updateAssoc, hp, hkk, ih]
    · by_cases hp' : p.1 = k'
      · simp [lookupAssoc, updateAssoc, hp, hp', h]
      · simp [lookupAssoc, updateAssoc, hp, hp', ih]

/-- Membership through descending insertion. -/
theorem mem_insertDescBy {α : Type} (key : α → Int) (x a : α) (l : List α) :
    a ∈ insertDescBy key x l ↔ a = x ∨ a ∈ l := by
  induction l with
  | nil => simp [insertDescBy]
  | cons y rest ih =>
    by_cases h : key y ≤ key x
    · simp [insertDescBy, h]
    · simp only [insertDescBy, h, if_false, List.mem_cons, ih]
      tauto

/-- The descending sort is membership-preserving. -/
theorem mem_sortDescBy {α : Type} (key : α → Int) (a : α) (l : List α) :
    a ∈ sortDescBy key l ↔ a ∈ l := by
  induction l with
  | nil => simp [sortDescBy]
  | cons x rest ih =>
    simp [sortDescBy, mem_insertDescBy, ih]

/-- Removing the record with id `k` makes `k` look up to nothing. -/
theorem lookupAssoc_filter_ne {α : Type} (l : List (Nat × α)) (k : Nat) :
    lookupAssoc (l.filter (fun p => !(p.1 == k))) k = none := by
  induction l with
  | nil => rfl
  | cons p rest ih =>
    by_cases hp : p.1 = k
    · simp [List.filter_cons, hp, ih]
    · simp [List.filter_cons, hp, lookupAssoc, ih]

/-- A resolve call that succeeds leaves the claim stored with a terminal
status (`approved` or `rejected`). -/
theorem resolveClaim_ok_terminal (w w' : World) (cid uid : Nat) (dec : String)
    (notes : Option String)
    (h : resolveClaim w cid uid dec notes = (ResolveOutcome.ok, w')) :
    ∃ c', Claim.findById w' cid = some c' ∧
      (c'.status = "approved" ∨ c'.status = "rejected") := by
  by_cases h1 : dec = "approved" ∨ dec = "rejected"
  case neg => simp [resolveClaim, h1] at h
  by_cases h2 : ((notes.map trimStr).getD "").length ≤ 500
  case neg => simp [resolveClaim, h1, h2] at h
  cases hc : Claim.findById w cid with
  | none => simp [resolveClaim, h1, h2, hc] at h
  | some claim =>
    cases hi : Item.findById w claim.item with
    | none => simp [resolveClaim, h1, h2, hc, hi] at h
    | some item =>
      by_cases h3 : item.createdBy = uid
      case neg => simp [resolveClaim, h1, h2, hc, hi, h3] at h
      by_cases h4 : claim.status = "pending"
      case neg => simp [resolveClaim, h1, h2, hc, hi, h3, h4] at h
      by_cases h5 : dec = "approved"
      · simp [resolveClaim, h5, h2, hc, hi, h3, h4] at h
        subst h
        refine ⟨claim.approve uid w.now, ?_, Or.inl rfl⟩
        exact lookupAssoc_updateAssoc_self w.claims cid _ claim hc
      · have h6 : dec = "rejected" := h1.resolve_left h5
        simp [resolveClaim, h6, h2, hc, hi, h3, h4] at h
        subst h
        refine ⟨claim.reject uid ((notes.map trimStr).getD "") w.now, ?_, Or.inr rfl⟩
        exact lookupAssoc_updateAssoc_self w.claims cid _ claim hc

/-- C1: for every claim whose status is terminal (approved or rejected), a
Resolve call by the item's owner with a valid decision (and valid notes)
fails with InvalidOperation and leaves the whole store — in particular the
claim's status, resolvedBy and resolvedAt — unchanged; and any Resolve call
that succeeds leaves the claim terminal, so Resolve succeeds at most once
per claim. -/
theorem resolve_terminal_fails_unchanged (w : World) (cid uid : Nat)
    (dec : String) (notes : Option String) (c : Claim) (it : Item)
    (hdec : dec = "approved" ∨ dec = "rejected")
    (hnotes : ((notes.map trimStr).getD "").length ≤ 500)
    (hc : Claim.findById w cid = some c)
    (hit : Item.findById w c.item = some it)
    (hown : it.createdBy = uid)
    (hterm : c.status = "approved" ∨ c.status = "rejected") :
    resolveClaim w cid uid dec notes = (ResolveOutcome.invalidOperation, w)
    ∧ ∀ w₀ w₁ cid₀ uid₀ dec₀ notes₀,
        resolveClaim w₀ cid₀ uid₀ dec₀ notes₀ = (ResolveOutcome.ok, w₁) →
        ∃ c₁, Claim.findById w₁ cid₀ = some c₁ ∧
          (c₁.status = "approved" ∨ c₁.status = "rejected") := by
  constructor
  · have hpend : c.status ≠ "pending" := by
      rcases hterm with h | h <;> simp [h]
    have e1 : (¬ (dec = "approved" ∨ dec = "rejected")) = False :=
      eq_false (not_not_intro hdec)
    have e2 : (¬ (((notes.map trimStr).getD "").length ≤ 500)) = False :=
      eq_false (not_not_intro hnotes)
    simp [resolveClaim, e1, e2, hc, hit, hown, hpend]
  · intro w₀ w₁ cid₀ uid₀ dec₀ notes₀ h
    exact resolveClaim_ok_terminal w₀ w₁ cid₀ uid₀ dec₀ notes₀ h

/-- Witness for C1: in the world where claim 1 on item 1 is already
approved, the owner's second resolve attempt fails with InvalidOperation and
changes nothing. -/
theorem resolve_terminal_fails_unchanged_witness :
    resolveClaim wTerm 1 10 "rejected" none = (ResolveOutcome.invalidOperation, wTerm) :=
  (resolve_terminal_fails_unchanged wTerm 1 10 "rejected" none claimApproved itemFound
    (Or.inr rfl) (by decide) (by decide) (by decide) rfl (Or.inl rfl)).1

/-- C3: resolving a pending claim as its item's owner: with decision
approved, the stored claim becomes approved with resolver and resolution
timestamp and the associated item's status becomes resolved; with decision
rejected, the stored claim becomes rejected with resolver, timestamp and the
notes when provided, and the items collection is untouched. -/
theorem resolve_pending_effects (w : World) (cid uid : Nat)
    (notes : Option String) (c : Claim) (it : Item)
    (hnotes : ((notes.map trimStr).getD "").length ≤ 500)
    (hc : Claim.findById w cid = some c)
    (hit : Item.findById w c.item = some it)
    (hown : it.createdBy = uid)
    (hpend : c.status = "pending") :
    (∃ w', resolveClaim w cid uid "approved" notes = (ResolveOutcome.ok, w')
      ∧ Claim.findById w' cid = some (c.approve uid w.now)
      ∧ (c.approve uid w.now).status = "approved"
      ∧ (c.approve uid w.now).resolvedBy = some uid
      ∧ (c.approve uid w.now).resolvedAt = some w.now
      ∧ Item.findById w' c.item = some { it with status := "resolved" })
    ∧ (∃ w', resolveClaim w cid uid "rejected" notes = (ResolveOutcome.ok, w')
      ∧ Claim.findById w' cid
          = some (c.reject uid ((notes.map trimStr).getD "") w.now)
      ∧ (c.reject uid ((notes.map trimStr).getD "") w.now).status = "rejected"
      ∧ (c.reject uid ((notes.map trimStr).getD "") w.now).resolvedBy = some uid
      ∧ (c.reject uid ((notes.map trimStr).getD "") w.now).resolvedAt = some w.now
      ∧ (c.reject uid ((notes.map trimStr).getD "") w.now).adminNotes
          = (if ((notes.map trimStr).getD "") ≠ "" then
              some ((notes.map trimStr).getD "") else c.adminNotes)
      ∧ w'.items = w.items) := by
  have e2 : (¬ (((notes.map trimStr).getD "").length ≤ 500)) = False :=
    eq_false (not_not_intro hnotes)
  constructor
  · refine ⟨{ w with
        claims := updateAssoc w.claims cid (c.approve uid w.now),
        items := updateAssoc w.items c.item { it with status := "resolved" } },
      ?_, ?_, rfl, rfl, rfl, ?_⟩
    · simp [resolveClaim, e2, hc, hit, hown, hpend]
    · exact lookupAssoc_updateAssoc_self w.claims cid _ c hc
    · exact lookupAssoc_updateAssoc_self w.items c.item _ it hit
  · refine ⟨{ w with
        claims := updateAssoc w.claims cid
          (c.reject uid ((notes.map trimStr).getD "") w.now) },
      ?_, ?_, rfl, rfl, rfl, rfl, rfl⟩
    · simp [resolveClaim, e2, hc, hit, hown, hpend]
    · exact lookupAssoc_updateAssoc_self w.claims cid _ c hc

/-- Witness for C3: approving the pending claim of wPend succeeds and marks
item 1 resolved. -/
theorem resolve_pending_effects_witness :
    ∃ w', resolveClaim wPend 1 10 "approved" none = (ResolveOutcome.ok, w')
      ∧ Claim.findById w' 1 = some (claimPending.approve 10 500)
      ∧ Item.findById w' 1 = some { itemFound with status := "resolved" } := by
  obtain ⟨⟨w', h1, h2, -, -, -, h6⟩, -⟩ :=
    resolve_pending_effects wPend 1 10 none claimPending itemFound
      (by decide) (by decide) (by decide) rfl rfl
  exact ⟨w', h1, h2, h6⟩

/-- C10: Resolve performs no item-activity check — for a pending claim
whose item record exists but is soft-deleted or not active (resolved or
archived), the item's owner can still approve (which forces the item's
status to resolved) or reject the claim. -/
theorem resolve_ignores_item_activity (w : World) (cid uid : Nat)
    (notes : Option String) (c : Claim) (it : Item)
    (hnotes : ((notes.map trimStr).getD "").length ≤ 500)
    (hc : Claim.findById w cid = some c)
    (hit : Item.findById w c.item = some it)
    (hown : it.createdBy = uid)
    (hpend : c.status = "pending")
    (hinactive : it.isActive = false ∨ it.status ≠ "active") :
    ((resolveClaim w cid uid "approved" notes).1 = ResolveOutcome.ok
      ∧ Item.findById (resolveClaim w cid uid "approved" notes).2 c.item
          = some { it with status := "resolved" })
    ∧ (resolveClaim w cid uid "rejected" notes).1 = ResolveOutcome.ok := by
  have e2 : (¬ (((notes.map trimStr).getD "").length ≤ 500)) = False :=
    eq_false (not_not_intro hnotes)
  have happ : resolveClaim w cid uid "approved" notes
      = (ResolveOutcome.ok, { w with
          claims := updateAssoc w.claims cid (c.approve uid w.now),
          items := updateAssoc w.items c.item { it with status := "resolved" } }) := by
    simp [resolveClaim, e2, hc, hit, hown, hpend]
  have hrej : (resolveClaim w cid uid "rejected" notes).1 = ResolveOutcome.ok := by
    simp [resolveClaim, e2, hc, hit, hown, hpend]
  refine ⟨⟨?_, ?_⟩, hrej⟩
  · rw [happ]
  · rw [happ]
    exact lookupAssoc_updateAssoc_self w.items c.item _ it hit

/-- Witness for C10: in wSoftDel the item is soft-deleted and archived, yet
its owner approves the pending claim and the item is stored as resolved. -/
theorem resolve_ignores_item_activity_witness :
    (resolveClaim wSoftDel 1 10 "approved" none).1 = ResolveOutcome.ok
    ∧ Item.findById (resolveClaim wSoftDel 1 10 "approved" none).2 1
        = some { itemGoneSoft with status := "resolved" } :=
  (resolve_ignores_item_activity wSoftDel 1 10 none claimPending itemGoneSoft
    (by decide) (by decide) (by decide) rfl rfl (Or.inl rfl)).1

/-- Counterexample to C2: in wPend user 20 already has a claim on item 1;
their second submit is refused, but with HTTP status 400 (message branch
for an existing claim), not 409, and no new claim is created. -/
theorem submit_duplicate_counterexample :
    (submitClaim wPend 1 20 msg40).1 = SubmitOutcome.alreadyClaimed
    ∧ (submitClaim wPend 1 20 msg40).1.httpStatus = 400
    ∧ ¬ ((submitClaim wPend 1 20 msg40).1.httpStatus = 409)
    ∧ (submitClaim wPend 1 20 msg40).2 = wPend := by decide

/-- C2 as amended: when a claim by the same claimant on the same item
already exists (in any status), a second submit that passes the earlier
checks is refused with the already-claimed branch — HTTP 400, not 409 —
and the store is unchanged, so no new claim is created. -/
theorem submit_duplicate_rejected (w : World) (itemId uid : Nat)
    (message : String) (it : Item)
    (hmsg : 20 ≤ (trimStr message).length ∧ (trimStr message).length ≤ 1000)
    (hfind : Item.findById w itemId = some it)
    (hact : it.isActive = true)
    (hst : it.status = "active")
    (hnotown : it.createdBy ≠ uid)
    (hdup : ∃ p ∈ w.claims, p.2.item = itemId ∧ p.2.claimedBy = uid) :
    submitClaim w itemId uid message = (SubmitOutcome.alreadyClaimed, w)
    ∧ SubmitOutcome.alreadyClaimed.httpStatus = 400 := by
  have hany : w.claims.any (fun p => p.2.item == itemId && p.2.claimedBy == uid) = true := by
    rw [List.any_eq_true]
    obtain ⟨p, hp, h1, h2⟩ := hdup
    exact ⟨p, hp, by simp [h1, h2]⟩
  have e1 : (¬ (20 ≤ (trimStr message).length ∧ (trimStr message).length ≤ 1000)) = False :=
    eq_false (not_not_intro hmsg)
  have e2 : (it.isActive = false ∨ it.status ≠ "active") = False := by
    simp [hact, hst]
  refine ⟨?_, rfl⟩
  simp [submitClaim, e1, e2, hfind, hnotown, hany]

/-- Witness for the amended C2 at the concrete duplicate state. -/
theorem submit_duplicate_rejected_witness :
    submitClaim wPend 1 20 msg40 = (SubmitOutcome.alreadyClaimed, wPend)
    ∧ SubmitOutcome.alreadyClaimed.httpStatus = 400 :=
  submit_duplicate_rejected wPend 1 20 msg40 itemFound (by decide) (by decide)
    rfl rfl (by decide) ⟨(1, claimPending), by decide, rfl, rfl⟩

/-- Counterexample to C4: itemLost is a lost, active, listed item; the
frontend gate is false for it, yet the backend submit by non-owner 20
succeeds and creates a claim. -/
theorem claim_lost_item_counterexample :
    itemLost.itemType = "lost"
    ∧ itemLost.status = "active"
    ∧ itemLost.isActive = true
    ∧ canBeClaimed itemLost (some 20) = false
    ∧ (submitClaim wLost 1 20 msg40).1 = SubmitOutcome.created 1
    ∧ (submitClaim wLost 1 20 msg40).2.claims ≠ [] := by decide

/-- C4 as amended: the frontend gate canBeClaimed is false for every item of
type lost, so the UI offers no claim action on lost items; but the backend
submit route checks only existence, activity and ownership — never the item
type — so a non-owner submitting a valid message on an active lost item
succeeds, appending a new pending claim. -/
theorem claim_lost_item_gate (it : Item) (user : Option Nat) (w : World)
    (itemId uid : Nat) (message : String) (target : Item)
    (hlost : it.itemType = "lost")
    (hmsg : 20 ≤ (trimStr message).length ∧ (trimStr message).length ≤ 1000)
    (hfind : Item.findById w itemId = some target)
    (htlost : target.itemType = "lost")
    (hact : target.isActive = true)
    (hst : target.status = "active")
    (hnotown : target.createdBy ≠ uid)
    (hnodup : w.claims.any (fun p => p.2.item == itemId && p.2.claimedBy == uid) = false) :
    canBeClaimed it user = false
    ∧ submitClaim w itemId uid message
        = (SubmitOutcome.created (freshId w.claims),
           { w with claims := w.claims ++
              [(freshId w.claims,
                { item := itemId, claimedBy := uid, message := trimStr message,
                  status := "pending", adminNotes := none, resolvedAt := none,
                  resolvedBy := none, createdAt := w.now })] }) := by
  constructor
  · simp [canBeClaimed, hlost]
  · have e1 : (¬ (20 ≤ (trimStr message).length ∧ (trimStr message).length ≤ 1000)) = False :=
      eq_false (not_not_intro hmsg)
    have e2 : (target.isActive = false ∨ target.status ≠ "active") = False := by
      simp [hact, hst]
    simp [submitClaim, e1, e2, hfind, hnotown, hnodup]

/-- Witness for the amended C4: user 20 claims the lost item of wLost. -/
theorem claim_lost_item_gate_witness :
    canBeClaimed itemLost (some 20) = false
    ∧ submitClaim wLost 1 20 msg40
        = (SubmitOutcome.created (freshId wLost.claims),
           { wLost with claims := wLost.claims ++
              [(freshId wLost.claims,
                { item := 1, claimedBy := 20, message := trimStr msg40,
                  status := "pending", adminNotes := none, resolvedAt := none,
                  resolvedBy := none, createdAt := wLost.now })] }) :=
  claim_lost_item_gate itemLost (some 20) wLost 1 20 msg40 itemLost
    rfl (by decide) (by decide) rfl rfl rfl (by decide) (by decide)

/-- C5: every item returned by the public listing, for any combination of
query filters (and any behavior of the store's text index), has its active
flag set and status active — so resolved, archived and soft-deleted items
never appear. -/
theorem listing_only_active (textMatch : String → Item → Bool) (w : World)
    (q : ItemsQuery) (items : List (Nat × Item)) (pag : Pagination)
    (p : Nat × Item)
    (hok : getItems textMatch w q = ItemsListOutcome.ok items pag)
    (hmem : p ∈ items) :
    p.2.isActive = true ∧ p.2.status = "active" := by
  unfold getItems at hok
  split at hok
  · simp at hok
  · simp only [ItemsListOutcome.ok.injEq] at hok
    rw [← hok.1] at hmem
    have h1 := List.mem_of_mem_take hmem
    have h2 := List.mem_of_mem_drop h1
    rw [getFilteredItems, mem_sortDescBy, List.mem_filter] at h2
    have hpred := h2.2
    simp only [itemMatchesFilters, Bool.and_eq_true, beq_iff_eq] at hpred
    exact ⟨hpred.1.1.1.1.1.1.1, hpred.1.1.1.1.1.1.2⟩

/-- Witness for C5: the listing of wList with filters type=lost,
category=Keys, limit=50 returns exactly the lost Keys item, which is active
and listed. -/
theorem listing_only_active_witness :
    itemLost.isActive = true ∧ itemLost.status = "active" :=
  listing_only_active noText wList
    { type := some "lost", category := some "Keys", location := none,
      search := none, page := some 1, limit := some 50,
      dateFrom := none, dateTo := none }
    [(1, itemLost)] { current := 1, pages := 1, total := 1 } (1, itemLost)
    (by decide) (by decide)

/-- Counterexample to C6: itemArchived has its active flag set and status
archived, yet the detail route returns it (incrementing its views) instead
of refusing. -/
theorem view_archived_counterexample :
    itemArchived.isActive = true
    ∧ itemArchived.status = "archived"
    ∧ (getItem wArch 1).1 = ItemDetailOutcome.ok { itemArchived with views := 1 } := by
  decide

/-- C6 as amended: the detail route checks only the active flag, never the
status — an item with active flag set and status archived IS returned to
every viewer (with its view counter incremented and stored); only an absent
or soft-deleted item yields 404. -/
theorem view_archived_item_returned (w : World) (id : Nat) (it : Item)
    (hfind : Item.findById w id = some it)
    (hact : it.isActive = true)
    (hst : it.status = "archived") :
    getItem w id = (ItemDetailOutcome.ok { it with views := it.views + 1 },
      { w with items := updateAssoc w.items id { it with views := it.views + 1 } }) := by
  have e : (it.isActive = false) = False := by simp [hact]
  simp [getItem, hfind, e]

/-- Witness for the amended C6 at the archived item of wArch. -/
theorem view_archived_item_returned_witness :
    getItem wArch 1 = (ItemDetailOutcome.ok { itemArchived with views := 1 },
      { wArch with items := updateAssoc wArch.items 1 { itemArchived with views := 1 } }) :=
  view_archived_item_returned wArch 1 itemArchived (by decide) rfl rfl

/-- C7: a triple (claim id, claim, item) is returned by the pending-claims
listing for a requester exactly when the claim is stored, is pending, its
item reference resolves, and that item is owned by the requester — so every
returned claim is pending and on the requester's item, and a claim whose
item does not resolve under the ownership match is silently excluded rather
than causing an error. -/
theorem pending_claims_owner_characterization (w : World) (uid cid : Nat)
    (c : Claim) (it : Item) :
    (cid, c, it) ∈ listPendingForOwner w uid
    ↔ ((cid, c) ∈ w.claims ∧ c.status = "pending"
        ∧ Item.findById w c.item = some it ∧ it.createdBy = uid) := by
  unfold listPendingForOwner getPendingClaimsForUser
  rw [List.mem_filterMap]
  constructor
  · rintro ⟨t, ht, hsome⟩
    rw [List.mem_map] at ht
    obtain ⟨p, hp, heq⟩ := ht
    rw [mem_sortDescBy, List.mem_filter] at hp
    obtain ⟨hpmem, hpstat⟩ := hp
    subst heq
    cases hfi : Item.findById w p.2.item with
    | none => simp [hfi] at hsome
    | some it1 =>
      by_cases hcb : it1.createdBy = uid
      · simp only [hfi, hcb, if_true, ite_true] at hsome
        simp only [Option.some.injEq, Prod.mk.injEq] at hsome
        obtain ⟨h1, h2, h3⟩ := hsome
        have hpq : p = (cid, c) := Prod.ext_iff.mpr ⟨h1, h2⟩
        subst h3
        rw [hpq] at hpmem hpstat hfi
        refine ⟨hpmem, ?_, hfi, hcb⟩
        simpa using hpstat
      · simp [hfi, hcb] at hsome
  · rintro ⟨hmem, hstat, hfind, hcb⟩
    refine ⟨(cid, c, some it), ?_, rfl⟩
    rw [List.mem_map]
    refine ⟨(cid, c), ?_, ?_⟩
    · rw [mem_sortDescBy, List.mem_filter]
      exact ⟨hmem, by simp [hstat]⟩
    · simp [hfind, hcb]

/-- C8: deleting a claim fails with NotFound when the claim is missing,
Forbidden when the requester is not the claimant, and InvalidOperation when
the claim is not pending — each failure leaving the store unchanged, so the
claim persists — and only on success (pending claim, requester is the
claimant) is the claim removed from the store, while items are untouched. -/
theorem claim_delete_spec (w : World) (cid uid : Nat) :
    (Claim.findById w cid = none →
      deleteClaim w cid uid = (DeleteOutcome.claimNotFound, w))
    ∧ ∀ c, Claim.findById w cid = some c →
        ((c.claimedBy ≠ uid →
            deleteClaim w cid uid = (DeleteOutcome.forbidden, w))
        ∧ (c.claimedBy = uid → c.status ≠ "pending" →
            deleteClaim w cid uid = (DeleteOutcome.invalidOperation, w))
        ∧ (c.claimedBy = uid → c.status = "pending" →
            (deleteClaim w cid uid).1 = DeleteOutcome.deleted
            ∧ Claim.findById (deleteClaim w cid uid).2 cid = none
            ∧ (deleteClaim w cid uid).2.items = w.items)) := by
  constructor
  · intro h
    simp [deleteClaim, h]
  · intro c hc
    refine ⟨?_, ?_, ?_⟩
    · intro hne
      simp [deleteClaim, hc, hne]
    · intro heq hst
      simp [deleteClaim, hc, heq, hst]
    · intro heq hst
      have hd : deleteClaim w cid uid
          = (DeleteOutcome.deleted,
             { w with claims := w.claims.filter (fun p => !(p.1 == cid)) }) := by
        simp [deleteClaim, hc, heq, hst]
      rw [hd]
      exact ⟨rfl, lookupAssoc_filter_ne w.claims cid, rfl⟩

/-- Witness for C8 on wDel: deleting the approved claim 2 fails with
InvalidOperation and changes nothing; deleting the missing claim 3 fails
with NotFound; deleting the pending claim 1 succeeds and removes it. -/
theorem claim_delete_spec_witness :
    deleteClaim wDel 2 20 = (DeleteOutcome.invalidOperation, wDel)
    ∧ deleteClaim wDel 3 20 = (DeleteOutcome.claimNotFound, wDel)
    ∧ (deleteClaim wDel 1 20).1 = DeleteOutcome.deleted
    ∧ Claim.findById (deleteClaim wDel 1 20).2 1 = none := by
  have h1 := ((claim_delete_spec wDel 2 20).2 claimApproved (by decide)).2.1
    rfl (by decide)
  have h2 := (claim_delete_spec wDel 3 20).1 (by decide)
  have h3 := ((claim_delete_spec wDel 1 20).2 claimPending (by decide)).2.2
    rfl rfl
  exact ⟨h1, h2, h3.1, h3.2.1⟩

/-- C9: a successful owner edit changes at most the allowed fields — the
item's status, type, event date, active flag, view counter, owner
reference, tags and creation time are all preserved, so an edit never
reverts a resolved status. -/
theorem edit_preserves_frame (w : World) (itemId uid : Nat)
    (b : UpdateItemBody) (it it' : Item) (w' : World)
    (hfind : Item.findById w itemId = some it)
    (hok : updateItem w itemId uid b = (UpdateOutcome.ok it', w')) :
    it'.status = it.status ∧ it'.itemType = it.itemType ∧ it'.date = it.date
    ∧ it'.isActive = it.isActive ∧ it'.views = it.views
    ∧ it'.createdBy = it.createdBy ∧ it'.tags = it.tags
    ∧ it'.createdAt = it.createdAt
    ∧ Item.findById w' itemId = some it' := by
  by_cases hv : validUpdateBody b = false
  · simp [updateItem, hv] at hok
  · rw [updateItem, if_neg hv, hfind] at hok
    by_cases hact : it.isActive = false
    · simp [hact] at hok
    · by_cases hown : it.createdBy = uid
      · have e : (it.createdBy ≠ uid) = False := by simp [hown]
        have hact2 : it.isActive = true := by simpa using hact
        simp [hact, e] at hok
        obtain ⟨hit', hw'⟩ := hok
        subst hw'
        rw [← hit']
        refine ⟨rfl, rfl, rfl, hact2.symm, rfl, rfl, rfl, rfl, ?_⟩
        exact lookupAssoc_updateAssoc_self w.items itemId _ it hfind
      · simp [hact, hown] at hok

/-- The edit body used by the frame witness: a new title only. -/
def bEdit : UpdateItemBody :=
  { title := some "A new nice title", description := none, category := none,
    location := none, contactInfo := none, imageFile := none }

/-- The item of wPend after the witness edit. -/
def itemEdited : Item :=
  { itemFound with title := "A new nice title" }

/-- The world of wPend after the witness edit. -/
def wEdited : World :=
  { wPend with items := [(1, itemEdited)] }

/-- Witness for C9: retitling item 1 of wPend keeps every framed field. -/
theorem edit_preserves_frame_witness :
    itemEdited.status = itemFound.status
    ∧ itemEdited.itemType = itemFound.itemType
    ∧ itemEdited.date = itemFound.date
    ∧ itemEdited.isActive = itemFound.isActive
    ∧ itemEdited.views = itemFound.views
    ∧ itemEdited.createdBy = itemFound.createdBy
    ∧ itemEdited.tags = itemFound.tags
    ∧ itemEdited.createdAt = itemFound.createdAt
    ∧ Item.findById wEdited 1 = some itemEdited :=
  edit_preserves_frame wPend 1 10 bEdit itemFound itemEdited wEdited
    (by decide) (by decide)

end LostFound
